import Mathlib

/-!
Verification development for the ASS-subtitle engine of `src/App.js`
(an Expo/React-Native video player).  The parser class `ASSParser` and
the renderer helpers `cleanText` / `getPositionStyle` are shallowly
embedded below.  JavaScript numbers are modelled as exact rationals
(`ℚ`); IEEE-754 double rounding is outside the model.  JavaScript's
`parseInt` / `parseFloat` are modelled as `Option`-valued functions
(`none` plays the role of `NaN`), and the source's pervasive
`parseX(field) || default` idiom is modelled by `jsOrZ` / `jsOrQ`,
which substitute the default both for `NaN` and for a parsed `0`
(both are falsy in JavaScript).
-/

/-- Whitespace accepted by JavaScript `parseInt`/`parseFloat` before the
number (ASCII subset; exotic Unicode spaces are not modelled and do not
occur in the subtitle format). -/
def isSpaceJS (c : Char) : Bool :=
  c = ' ' || c = '\t' || c = '\n' || c = '\r' || c = '\x0b' || c = '\x0c'

/-- Value of a single hexadecimal digit, `none` for every other
character, written as an explicit case split on the character literal. -/
def hexDigitVal? (c : Char) : Option Nat :=
  if c = '0' then some 0 else if c = '1' then some 1
  else if c = '2' then some 2 else if c = '3' then some 3
  else if c = '4' then some 4 else if c = '5' then some 5
  else if c = '6' then some 6 else if c = '7' then some 7
  else if c = '8' then some 8 else if c = '9' then some 9
  else if c = 'a' then some 10 else if c = 'b' then some 11
  else if c = 'c' then some 12 else if c = 'd' then some 13
  else if c = 'e' then some 14 else if c = 'f' then some 15
  else if c = 'A' then some 10 else if c = 'B' then some 11
  else if c = 'C' then some 12 else if c = 'D' then some 13
  else if c = 'E' then some 14 else if c = 'F' then some 15
  else none

/-- A character is a hexadecimal digit iff `hexDigitVal?` assigns it a value. -/
def isHexDig (c : Char) : Bool := (hexDigitVal? c).isSome

/-- Accumulate a list of decimal digit characters into a natural number. -/
def decDigitsToNat (ds : List Char) : Nat :=
  ds.foldl (fun a c => 10 * a + (c.toNat - 48)) 0

/-- Accumulate a list of hexadecimal digit characters into a natural number. -/
def hexDigitsToNat (ds : List Char) : Nat :=
  ds.foldl (fun a c => 16 * a + (hexDigitVal? c).getD 0) 0

/-- Strip one optional leading sign, returning whether it was a minus. -/
def stripSign (cs : List Char) : Bool × List Char :=
  match cs with
  | [] => (false, [])
  | c :: r => if c = '-' then (true, r) else if c = '+' then (false, r) else (false, cs)

/-- Strip one optional leading `0x`/`0X` prefix (the radix-16 rule of
JavaScript `parseInt`). -/
def strip0x (cs : List Char) : List Char :=
  match cs with
  | c :: x :: r => if c = '0' ∧ (x = 'x' ∨ x = 'X') then r else cs
  | _ => cs

/-- Longest decimal-digit prefix, `none` (= `NaN`) when it is empty. -/
def decPrefixVal (cs : List Char) : Option Nat :=
  let ds := cs.takeWhile Char.isDigit
  if ds = [] then none else some (decDigitsToNat ds)

/-- Longest hexadecimal-digit prefix, `none` (= `NaN`) when it is empty. -/
def hexPrefixVal (cs : List Char) : Option Nat :=
  let ds := cs.takeWhile isHexDig
  if ds = [] then none else some (hexDigitsToNat ds)

/-- JavaScript `parseInt(s)` with no radix argument: skip whitespace,
read an optional sign, switch to base 16 on a `0x`/`0X` prefix,
otherwise read the longest decimal-digit prefix; `NaN` (here `none`)
when no digit is found. -/
def jsParseIntL (cs : List Char) : Option Int :=
  let t := cs.dropWhile isSpaceJS
  let s := stripSign t
  match s.2 with
  | c :: x :: r =>
    if c = '0' ∧ (x = 'x' ∨ x = 'X') then
      (hexPrefixVal r).map (fun n => if s.1 then -(n : Int) else (n : Int))
    else
      (decPrefixVal s.2).map (fun n => if s.1 then -(n : Int) else (n : Int))
  | _ => (decPrefixVal s.2).map (fun n => if s.1 then -(n : Int) else (n : Int))

/-- JavaScript `parseInt(s, 16)`: skip whitespace, read an optional
sign, strip an optional `0x`/`0X`, then the longest hex-digit prefix;
`NaN` (`none`) when no digit is found. -/
def jsParseIntHex16L (cs : List Char) : Option Int :=
  let t := cs.dropWhile isSpaceJS
  let s := stripSign t
  (hexPrefixVal (strip0x s.2)).map (fun n => if s.1 then -(n : Int) else (n : Int))

/-!
Rational arithmetic inside the embedding is written with `Rat.divInt`
(which the kernel can evaluate) rather than the `@[irreducible]`
field operations of `ℚ`; the lemmas `qAdd_eq` / `qMul_eq` / `qNeg_eq`
below identify these helpers with the ordinary operations, so theorem
statements can use `+` and `*` freely.
-/

/-- Exact addition on `ℚ` via cross-multiplication of the stored
numerators and denominators. -/
def qAdd (a b : ℚ) : ℚ :=
  Rat.divInt (a.num * (b.den : Int) + b.num * (a.den : Int)) ((a.den : Int) * (b.den : Int))

/-- Exact multiplication on `ℚ` via the stored numerators and denominators. -/
def qMul (a b : ℚ) : ℚ :=
  Rat.divInt (a.num * b.num) ((a.den : Int) * (b.den : Int))

/-- Exact negation on `ℚ`. -/
def qNeg (a : ℚ) : ℚ := Rat.divInt (-a.num) (a.den : Int)

/-- Exact multiplication of a rational by `10 ^ ex` for `ex : ℤ`. -/
def qMulPow10 (q : ℚ) (ex : Int) : ℚ :=
  if 0 ≤ ex then Rat.divInt (q.num * 10 ^ ex.toNat) (q.den : Int)
  else Rat.divInt q.num ((q.den : Int) * 10 ^ (-ex).toNat)

/-- JavaScript `parseFloat(s)` restricted to finite decimal literals:
skip whitespace, optional sign, decimal digits, optional fraction,
optional exponent; `NaN` (`none`) when neither integer nor fraction
digits are present.  The mantissa `ip.fp` is the exact rational
`(ip * 10^|fp| + fp) / 10^|fp|`.  The literals `Infinity`/`NaN` are not
modelled (they never arise in the subtitle format). -/
def jsParseFloatL (cs : List Char) : Option ℚ :=
  let t := cs.dropWhile isSpaceJS
  let s := stripSign t
  let ip := s.2.takeWhile Char.isDigit
  let t3 := s.2.drop ip.length
  let fp := match t3 with
    | '.' :: r => r.takeWhile Char.isDigit
    | _ => []
  let t4 := match t3 with
    | '.' :: r => r.drop ((r.takeWhile Char.isDigit).length)
    | _ => t3
  if ip = [] ∧ fp = [] then none
  else
    let mant : ℚ :=
      Rat.divInt ((decDigitsToNat ip * 10 ^ fp.length + decDigitsToNat fp : Nat) : Int)
        (((10 ^ fp.length : Nat) : Int))
    let ex : Int := match t4 with
      | e :: r =>
        if e = 'e' ∨ e = 'E' then
          let es := stripSign r
          let eds := es.2.takeWhile Char.isDigit
          if eds = [] then 0
          else if es.1 then -(decDigitsToNat eds : Int) else (decDigitsToNat eds : Int)
        else 0
      | [] => 0
    let v := qMulPow10 mant ex
    some (if s.1 then qNeg v else v)

/-- String-level wrapper for `jsParseIntL`. -/
def jsParseInt (s : String) : Option Int := jsParseIntL s.toList

/-- String-level wrapper for `jsParseFloatL`. -/
def jsParseFloat (s : String) : Option ℚ := jsParseFloatL s.toList

/-- The JavaScript idiom `x || d` applied to an integer parse result:
both `NaN` (`none`) and `0` are falsy and give the default. -/
def jsOrZ (v : Option Int) (d : Int) : Int :=
  match v with
  | none => d
  | some x => if x = 0 then d else x

/-- The JavaScript idiom `x || d` applied to a rational parse result:
both `NaN` (`none`) and `0` are falsy and give the default. -/
def jsOrQ (v : Option ℚ) (d : ℚ) : ℚ :=
  match v with
  | none => d
  | some x => if x = 0 then d else x

/-- Rendering of a JavaScript number inside a template string:
`NaN` renders as `"NaN"`, an integer as its decimal digits. -/
def renderJSNum (v : Option Int) : String :=
  match v with
  | none => "NaN"
  | some n => toString n

/-- JavaScript `String.prototype.split` with a one-character separator,
on character lists (splitting is structural so that the kernel can
evaluate it; the core `String.splitOn` is defined by well-founded
recursion and does not reduce).  Matches JS: `"".split(c) = [""]`,
separators at the ends produce empty fields. -/
def splitOnCharL (sep : Char) : List Char → List (List Char)
  | [] => [[]]
  | c :: rest =>
    match splitOnCharL sep rest with
    | [] => [[c]]
    | h :: t => if c = sep then [] :: h :: t else (c :: h) :: t

/-- String-level wrapper for `splitOnCharL`. -/
def splitOnChar (sep : Char) (s : String) : List String :=
  (splitOnCharL sep s.toList).map String.mk

/-- JavaScript `String.prototype.trim` on character lists (ASCII
whitespace subset, which covers the subtitle format). -/
def jsTrimL (cs : List Char) : List Char :=
  ((cs.dropWhile isSpaceJS).reverse.dropWhile isSpaceJS).reverse

/-- String-level wrapper for `jsTrimL`. -/
def jsTrim (s : String) : String := String.mk (jsTrimL s.toList)

/-- ASCII lower-casing of one character (JavaScript `toLowerCase` on
the ASCII section names used by the parser). -/
def toLowerChar (c : Char) : Char :=
  if 'A' ≤ c ∧ c ≤ 'Z' then Char.ofNat (c.toNat + 32) else c

/-- JavaScript `String.prototype.startsWith`. -/
def jsStartsWith (s pre : String) : Bool := pre.toList.isPrefixOf s.toList

/-- JavaScript `String.prototype.endsWith`. -/
def jsEndsWith (s suf : String) : Bool := suf.toList.isSuffixOf s.toList

/-- JavaScript `Array.prototype.join(',')` on character lists. -/
def intercalateCommaL : List (List Char) → List Char
  | [] => []
  | [x] => x
  | x :: y :: t => x ++ ',' :: intercalateCommaL (y :: t)

/-- String-level wrapper for `intercalateCommaL`. -/
def intercalateComma (xs : List String) : String :=
  String.mk (intercalateCommaL (xs.map String.toList))

/-- JavaScript `String.prototype.replace` with a plain-string pattern
and empty replacement: remove the first occurrence of `pat` (the
source's `line.replace('Style:', '')` / `line.replace('Dialogue:', '')`). -/
def replaceFirstRem (pat : List Char) : List Char → List Char
  | [] => []
  | c :: rest =>
    if pat.isPrefixOf (c :: rest) then (c :: rest).drop pat.length
    else c :: replaceFirstRem pat rest

/-- A parsed style record (the object literal built in `parseStyle`). -/
structure Style where
  name : String
  fontName : String
  fontSize : Int
  primaryColour : String
  secondaryColour : String
  outlineColour : String
  backColour : String
  bold : Bool
  italic : Bool
  underline : Bool
  strikeOut : Bool
  scaleX : ℚ
  scaleY : ℚ
  spacing : ℚ
  angle : ℚ
  borderStyle : Int
  outline : ℚ
  shadow : ℚ
  alignment : Int
  marginL : Int
  marginR : Int
  marginV : Int
deriving DecidableEq

/-- A parsed dialogue event (the object literal built in `parseDialogue`).
The source's `end` field is named `end_` because `end` is reserved. -/
structure DialogueEvent where
  layer : Int
  start : ℚ
  end_ : ℚ
  style : String
  name : String
  marginL : Int
  marginR : Int
  marginV : Int
  effect : String
  text : String
deriving DecidableEq

/-- Comparison key of the source's `events.sort((a, b) => a.start - b.start)`. -/
def eventLE (a b : DialogueEvent) : Prop := a.start ≤ b.start

instance : DecidableRel eventLE := fun a b => inferInstanceAs (Decidable (a.start ≤ b.start))

instance : IsTotal DialogueEvent eventLE := ⟨fun a b => le_total a.start b.start⟩

instance : IsTrans DialogueEvent eventLE := ⟨fun _ _ _ h h2 => le_trans h h2⟩

/-- Parser state and result: the `styles` map (name-keyed, most recent
binding first, so `find?` realises JavaScript's last-write-wins object
assignment) and the `events` array. -/
structure ASSParser where
  styles : List (String × Style)
  events : List DialogueEvent
deriving DecidableEq

namespace ASSParser

/-- `parseTime` of `src/App.js`: split on `:`; anything but exactly
three fields yields `0`; hours and minutes via `parseInt(..) || 0`,
seconds via `parseFloat(..) || 0`; result `(h*3600 + m*60 + s) * 1000`. -/
def parseTime (timeStr : String) : ℚ :=
  let parts := splitOnChar ':' timeStr
  if parts.length = 3 then
    let hours := jsOrQ ((jsParseInt (parts.getD 0 "")).map (Int.cast : Int → ℚ)) 0
    let minutes := jsOrQ ((jsParseInt (parts.getD 1 "")).map (Int.cast : Int → ℚ)) 0
    let seconds := jsOrQ (jsParseFloat (parts.getD 2 "")) 0
    qMul (qAdd (qAdd (qMul hours 3600) (qMul minutes 60)) seconds) 1000
  else 0

/-- `parseColor` of `src/App.js`, on the character list: a string that
starts with `&H` and ends with `&` is decoded as BGR hex via three
`parseInt(hex.substr(i, 2), 16)` calls interpolated into an `rgb(...)`
template (a failed hex parse interpolates as `NaN`); anything else is
the default white. -/
def parseColorL (cs : List Char) : String :=
  if ("&H".toList.isPrefixOf cs) ∧ (cs.getLast? = some '&') then
    let hex := (cs.drop 2).dropLast
    let b := jsParseIntHex16L (hex.take 2)
    let g := jsParseIntHex16L ((hex.drop 2).take 2)
    let r := jsParseIntHex16L ((hex.drop 4).take 2)
    "rgb(" ++ renderJSNum r ++ ", " ++ renderJSNum g ++ ", " ++ renderJSNum b ++ ")"
  else "#ffffff"

/-- String-level wrapper for `parseColorL`. -/
def parseColor (colorStr : String) : String := parseColorL colorStr.toList

/-- The comma-split field list of a style line after
`line.replace('Style:', '')`. -/
def stylePartsOf (line : String) : List String :=
  splitOnChar ',' (String.mk (replaceFirstRem ("Style:".toList) line.toList))

/-- `parseInt(parts[i])` on a field list; a missing index is JavaScript
`undefined`, and `parseInt(undefined)` is `NaN` (`none`). -/
def jsParseIntAt (parts : List String) (i : Nat) : Option Int :=
  (parts[i]?).bind (fun s => jsParseInt s)

/-- `parseFloat(parts[i])` on a field list; a missing index gives `NaN`. -/
def jsParseFloatAt (parts : List String) (i : Nat) : Option ℚ :=
  (parts[i]?).bind (fun s => jsParseFloat s)

/-- `parseStyle` of `src/App.js`: split the line (after removing the
first `Style:`) on commas; with fewer than 16 fields no record is made;
otherwise build the record, with `parseX(..) || default` fallbacks and
`=== '-1'` boolean flags. -/
def parseStyle (line : String) : Option Style :=
  let parts := stylePartsOf line
  if parts.length ≥ 16 then
    some {
      name := jsTrim (parts.getD 0 "")
      fontName := jsTrim (parts.getD 1 "")
      fontSize := jsOrZ (jsParseIntAt parts 2) 16
      primaryColour := parseColor (parts.getD 3 "")
      secondaryColour := parseColor (parts.getD 4 "")
      outlineColour := parseColor (parts.getD 5 "")
      backColour := parseColor (parts.getD 6 "")
      bold := (parts.getD 7 "") = "-1"
      italic := (parts.getD 8 "") = "-1"
      underline := (parts.getD 9 "") = "-1"
      strikeOut := (parts.getD 10 "") = "-1"
      scaleX := jsOrQ (jsParseFloatAt parts 11) 100
      scaleY := jsOrQ (jsParseFloatAt parts 12) 100
      spacing := jsOrQ (jsParseFloatAt parts 13) 0
      angle := jsOrQ (jsParseFloatAt parts 14) 0
      borderStyle := jsOrZ (jsParseIntAt parts 15) 1
      outline := jsOrQ (jsParseFloatAt parts 16) 0
      shadow := jsOrQ (jsParseFloatAt parts 17) 0
      alignment := jsOrZ (jsParseIntAt parts 18) 2
      marginL := jsOrZ (jsParseIntAt parts 19) 0
      marginR := jsOrZ (jsParseIntAt parts 20) 0
      marginV := jsOrZ (jsParseIntAt parts 21) 0 }
  else none

/-- The comma-split field list of a dialogue line after
`line.replace('Dialogue:', '')`. -/
def dialoguePartsOf (line : String) : List String :=
  splitOnChar ',' (String.mk (replaceFirstRem ("Dialogue:".toList) line.toList))

/-- `parseDialogue` of `src/App.js`: split on commas; fewer than 10
fields drops the line; the text field is `parts.slice(9).join(',').trim()`. -/
def parseDialogue (line : String) : Option DialogueEvent :=
  let parts := dialoguePartsOf line
  if parts.length ≥ 10 then
    some {
      layer := jsOrZ (jsParseIntAt parts 0) 0
      start := parseTime (jsTrim (parts.getD 1 ""))
      end_ := parseTime (jsTrim (parts.getD 2 ""))
      style := jsTrim (parts.getD 3 "")
      name := jsTrim (parts.getD 4 "")
      marginL := jsOrZ (jsParseIntAt parts 5) 0
      marginR := jsOrZ (jsParseIntAt parts 6) 0
      marginV := jsOrZ (jsParseIntAt parts 7) 0
      effect := jsTrim (parts.getD 8 "")
      text := jsTrim (intercalateComma (parts.drop 9)) }
  else none

/-- One iteration of the `parseASS` line loop: trim the line, switch
section on `[...]` headers (lower-cased contents), and within the
`v4+ styles` / `events` sections parse `Style:` / `Dialogue:` lines. -/
def step (acc : Option String × (List (String × Style) × List DialogueEvent))
    (rawLine : String) :
    Option String × (List (String × Style) × List DialogueEvent) :=
  let line := jsTrim rawLine
  if jsStartsWith line "[" ∧ jsEndsWith line "]" then
    (some (String.mk (((line.toList.drop 1).dropLast).map toLowerChar)), acc.2)
  else
    match acc.1 with
    | some sec =>
      if sec = "v4+ styles" ∧ jsStartsWith line "Style:" then
        match parseStyle line with
        | some st => (acc.1, ((st.name, st) :: acc.2.1, acc.2.2))
        | none => acc
      else if sec = "events" ∧ jsStartsWith line "Dialogue:" then
        match parseDialogue line with
        | some ev => (acc.1, (acc.2.1, acc.2.2 ++ [ev]))
        | none => acc
      else acc
    | none => acc

/-- `parseASS` of `src/App.js`: split the content on newlines, run the
section-aware line loop, then sort the events by start time.  The
source's `Array.prototype.sort` with comparator `a.start - b.start`
guarantees only the ordering, not stability; it is modelled by
insertion sort on the same key. -/
def parseASS (assContent : String) : ASSParser :=
  let lines := splitOnChar '\n' assContent
  let res := lines.foldl step (none, ([], []))
  { styles := res.2.1, events := List.insertionSort eventLE res.2.2 }

/-- `getActiveSubtitles` of `src/App.js`: filter the events whose
closed interval `[start, end]` contains the current time. -/
def getActiveSubtitles (p : ASSParser) (currentTime : ℚ) : List DialogueEvent :=
  p.events.filter (fun event => decide (currentTime ≥ event.start ∧ currentTime ≤ event.end_))

end ASSParser

/-- The character `{` (written via its code point to keep string and
character literals brace-free). -/
def lbrace : Char := Char.ofNat 123

/-- The character `}` (written via its code point). -/
def rbrace : Char := Char.ofNat 125

namespace SubtitleRenderer

/-- Worker for the override-tag removal regex replace
`text.replace(/\x7b[^\x7d]*\x7d/g, '')`.  The second argument is `none`
outside a tag, and `some buf` (the tag's characters so far, reversed)
inside a candidate tag; an unterminated tag is flushed verbatim at the
end of the input, matching the regex, which leaves a `\x7b` with no
later `\x7d` untouched. -/
def removeTagsAux : List Char → Option (List Char) → List Char
  | [], none => []
  | [], some buf => buf.reverse
  | c :: rest, none =>
    if c = lbrace then removeTagsAux rest (some [c])
    else c :: removeTagsAux rest none
  | c :: rest, some buf =>
    if c = rbrace then removeTagsAux rest none
    else removeTagsAux rest (some (c :: buf))

/-- Global removal of `\x7b...\x7d` override tags, delimiters included. -/
def removeTags (cs : List Char) : List Char := removeTagsAux cs none

/-- One of the two escape replaces of `cleanText`:
`replace(/\\X/g, '\n')` for `X` the given character, scanning left to
right over non-overlapping matches exactly like the global regex. -/
def replaceEscape (x : Char) : List Char → List Char
  | [] => []
  | [c] => [c]
  | c :: y :: rest2 =>
    if c = '\\' ∧ y = x then '\n' :: replaceEscape x rest2
    else c :: replaceEscape x (y :: rest2)

/-- `cleanText` of `src/App.js`: strip override tags, then turn the
hard (`\N`) and soft (`\n`) line-break escapes into real newlines. -/
def cleanText (text : String) : String :=
  String.mk (replaceEscape 'n' (replaceEscape 'N' (removeTags text.toList)))

/-- `getPositionStyle` of `src/App.js`, restricted to its two computed
attributes `(textAlign, alignSelf)`; a missing style returns the empty
style object (modelled `none`).  `style.alignment || 2` makes a zero
alignment fall back to 2; columns 1/4/7 map to `left`/`flex-start`,
3/6/9 to `right`/`flex-end`, everything else to `center`/`center`. -/
def getPositionStyle (style : Option Style) : Option (String × String) :=
  match style with
  | none => none
  | some st =>
    let alignment : Int := if st.alignment = 0 then 2 else st.alignment
    if alignment ∈ ([1, 4, 7] : List Int) then some ("left", "flex-start")
    else if alignment ∈ ([3, 6, 9] : List Int) then some ("right", "flex-end")
    else some ("center", "center")

end SubtitleRenderer

/-! ### Concrete inputs used by the claim theorems -/

/-- A track with two dialogue events on the intervals `[0,1000]` and
`[1000,2000]`, in input order. -/
def c1Input : String :=
  "[Events]\nDialogue: 0,0:00:00.00,0:00:01.00,Default,,0,0,0,,One\nDialogue: 0,0:00:01.00,0:00:02.00,Default,,0,0,0,,Two"

/-- The same two events as `c1Input` with the dialogue lines in reversed
(unsorted) input order. -/
def c9Input : String :=
  "[Events]\nDialogue: 0,0:00:01.00,0:00:02.00,Default,,0,0,0,,Two\nDialogue: 0,0:00:00.00,0:00:01.00,Default,,0,0,0,,One"

/-- A style line with exactly 16 comma-separated fields, the minimum
the parser accepts; fields 16..21 are absent. -/
def c10Line : String :=
  "Style:S,Arial,20,&H00FFFFFF&,&H000000FF&,&H00000000&,&H00000000&,0,0,0,0,100,100,0,0,1"

/-- A style section whose single style line carries the out-of-range
alignment field `11` (field index 18). -/
def c5Input : String :=
  "[V4+ Styles]\nStyle: S,Arial,20,&H00FFFFFF&,&H00FFFFFF&,&H00000000&,&H00000000&,0,0,0,0,100,100,0,0,1,2,2,11,10,10,10"

/-- A style line whose numeric fields are all unparsable (`zz`), so
every defaulted field must fall back. -/
def c5WitnessLine : String :=
  "Style:S,F,zz,c,c,c,c,0,0,0,0,zz,zz,zz,zz,zz,zz,zz,zz,zz,zz,zz"

/-- A dialogue line whose rejoined text fields start with a space,
exposing the final `.trim()`. -/
def c6TrimLine : String := "Dialogue:0,0:00:00.00,0:00:01.00,D,,0,0,0,, x"

/-- A dialogue line whose text contains a literal comma. -/
def c6HelloLine : String := "Dialogue: 0,0:00:00.00,0:00:05.00,Default,,0,0,0,,Hello, world"

/-- A fixed style record with a given alignment code (all other fields
neutral), used to probe the presentation mapping. -/
def sampleStyle (a : Int) : Style :=
  { name := "S", fontName := "Arial", fontSize := 16,
    primaryColour := "#ffffff", secondaryColour := "#ffffff", outlineColour := "#ffffff",
    backColour := "#ffffff", bold := false, italic := false, underline := false,
    strikeOut := false, scaleX := 100, scaleY := 100, spacing := 0, angle := 0,
    borderStyle := 1, outline := 0, shadow := 0, alignment := a,
    marginL := 0, marginR := 0, marginV := 0 }

/-! ### Helper lemmas -/

/-- `qAdd` is ordinary addition on `ℚ`. -/
theorem qAdd_eq (a b : ℚ) : qAdd a b = a + b := by
  conv_rhs => rw [← Rat.num_divInt_den a, ← Rat.num_divInt_den b,
    Rat.divInt_add_divInt _ _ (Int.natCast_ne_zero.mpr a.den_nz) (Int.natCast_ne_zero.mpr b.den_nz)]
  rfl

/-- `qMul` is ordinary multiplication on `ℚ`. -/
theorem qMul_eq (a b : ℚ) : qMul a b = a * b := by
  conv_rhs => rw [← Rat.num_divInt_den a, ← Rat.num_divInt_den b, Rat.divInt_mul_divInt']
  rfl

/-- `qNeg` is ordinary negation on `ℚ`. -/
theorem qNeg_eq (a : ℚ) : qNeg a = -a := by
  rw [qNeg, ← Rat.neg_divInt, Rat.num_divInt_den]

/-- A successful parse through `x || 0` keeps its value (when the value
is `0` the default `0` is substituted, which is the same thing). -/
theorem jsOrQ_some_zero (x : ℚ) : jsOrQ (some x) 0 = x := by
  by_cases h : x = 0 <;> simp [jsOrQ, h]

/-! ### Claim theorems -/

/-- Claim C1: for every parsed event track and query timestamp `t`, the
active-event query returns exactly the events whose closed interval
`[start, end]` contains `t` (both endpoints included); and on the track
with intervals `[0,1000]` and `[1000,2000]`, the query at `1000`
returns both events. -/
theorem c1_active_query_inclusive :
    (∀ (p : ASSParser) (t : ℚ) (e : DialogueEvent),
      e ∈ ASSParser.getActiveSubtitles p t ↔ e ∈ p.events ∧ e.start ≤ t ∧ t ≤ e.end_)
    ∧ (ASSParser.getActiveSubtitles (ASSParser.parseASS c1Input) 1000).map
        (fun e => (e.start, e.end_)) = [(0, 1000), (1000, 2000)] := by
  constructor
  · intro p t e
    simp only [ASSParser.getActiveSubtitles, List.mem_filter, decide_eq_true_eq, ge_iff_le]
  · decide

/-- Claim C3: `parseTime` is lenient: an input that does not split into
exactly three colon-separated fields yields `0` (e.g. `"12:34"`), and a
field that fails to parse as a number contributes zero (the minutes
field `"zz"` in the last conjunct). -/
theorem c3_parse_timestamp_lenient :
    (∀ s : String, (splitOnChar ':' s).length ≠ 3 → ASSParser.parseTime s = 0)
    ∧ ASSParser.parseTime "12:34" = 0
    ∧ ASSParser.parseTime "1:zz:3.5" = 3603500 := by
  refine ⟨?_, by decide, by decide⟩
  intro s h
  simp only [ASSParser.parseTime]
  rw [if_neg h]

/-- Witness for C3: the two-field input `"12:34"` satisfies the
hypothesis of the general conjunct and parses to `0`. -/
theorem c3_parse_timestamp_lenient_witness :
    (splitOnChar ':' "12:34").length ≠ 3 ∧ ASSParser.parseTime "12:34" = 0 :=
  ⟨by decide, c3_parse_timestamp_lenient.1 "12:34" (by decide)⟩

/-- Claim C9: after parsing, the event collection is sorted ascending
by start time for every input; and the two out-of-order dialogue lines
of `c9Input` come out in ascending start order. -/
theorem c9_events_sorted :
    (∀ assContent : String, List.Sorted eventLE (ASSParser.parseASS assContent).events)
    ∧ (ASSParser.parseASS c9Input).events.map (fun e => e.start) = [0, 1000] := by
  constructor
  · intro assContent
    simp only [ASSParser.parseASS]
    exact List.sorted_insertionSort eventLE _
  · decide

/-- Claim C10: every style line with exactly 16 fields (the minimum
accepted) still yields a complete record; the absent trailing positions
16..21 read as `undefined`, parse to `NaN`, and fall back to the
defaults outline `0`, shadow `0`, alignment `2`, margins `0` — no
out-of-bounds failure.  The concrete line `c10Line` instantiates it. -/
theorem c10_short_style_complete :
    (∀ line : String, (ASSParser.stylePartsOf line).length = 16 →
      ∃ st : Style, ASSParser.parseStyle line = some st
        ∧ st.outline = 0 ∧ st.shadow = 0 ∧ st.alignment = 2
        ∧ st.marginL = 0 ∧ st.marginR = 0 ∧ st.marginV = 0)
    ∧ (ASSParser.stylePartsOf c10Line).length = 16
    ∧ (ASSParser.parseStyle c10Line).map
        (fun st => (st.outline, st.shadow, st.alignment, st.marginL, st.marginR, st.marginV))
      = some (0, 0, 2, 0, 0, 0) := by
  refine ⟨?_, by decide, by decide⟩
  intro line h
  have h16 : (ASSParser.stylePartsOf line).length ≥ 16 := h.ge
  have e16 : (ASSParser.stylePartsOf line)[16]? = none := List.getElem?_eq_none (by omega)
  have e17 : (ASSParser.stylePartsOf line)[17]? = none := List.getElem?_eq_none (by omega)
  have e18 : (ASSParser.stylePartsOf line)[18]? = none := List.getElem?_eq_none (by omega)
  have e19 : (ASSParser.stylePartsOf line)[19]? = none := List.getElem?_eq_none (by omega)
  have e20 : (ASSParser.stylePartsOf line)[20]? = none := List.getElem?_eq_none (by omega)
  have e21 : (ASSParser.stylePartsOf line)[21]? = none := List.getElem?_eq_none (by omega)
  have hsome : (ASSParser.parseStyle line).isSome := by
    simp only [ASSParser.parseStyle]
    rw [if_pos h16]
    rfl
  obtain ⟨st, hst⟩ := Option.isSome_iff_exists.mp hsome
  have hrec := hst
  simp only [ASSParser.parseStyle] at hrec
  rw [if_pos h16] at hrec
  replace hrec := Option.some.inj hrec
  subst hrec
  refine ⟨_, hst, ?_, ?_, ?_, ?_, ?_, ?_⟩
  all_goals
    simp [ASSParser.jsParseFloatAt, ASSParser.jsParseIntAt, e16, e17, e18, e19, e20, e21,
      jsOrQ, jsOrZ]

/-- Witness for C10: the 16-field line `c10Line` satisfies the length
hypothesis, and the universal theorem yields its complete record with
the defaulted trailing fields. -/
theorem c10_short_style_complete_witness :
    ∃ st : Style, ASSParser.parseStyle c10Line = some st
      ∧ st.outline = 0 ∧ st.shadow = 0 ∧ st.alignment = 2
      ∧ st.marginL = 0 ∧ st.marginR = 0 ∧ st.marginV = 0 :=
  c10_short_style_complete.1 c10Line (by decide)

/-- Claim C2 is falsified on sub-millisecond fractions: `parseTime`
applies no rounding, so `"0:00:00.0005"` parses to the non-integer
`1/2` millisecond, while the claimed `round(H*3600000 + M*60000 +
S*1000)` is `1`. -/
theorem c2_counterexample_sub_ms_fraction :
    ASSParser.parseTime "0:00:00.0005" = Rat.divInt 1 2
    ∧ (ASSParser.parseTime "0:00:00.0005").den ≠ 1
    ∧ ASSParser.parseTime "0:00:00.0005"
      ≠ ((round ((0 : ℚ) * 3600000 + (0 : ℚ) * 60000 + Rat.divInt 5 10000 * 1000) : Int) : ℚ) := by
  refine ⟨by decide, by decide, ?_⟩
  have h1 : ASSParser.parseTime "0:00:00.0005" = Rat.divInt 1 2 := by decide
  have h2 : ((0 : ℚ) * 3600000 + (0 : ℚ) * 60000 + Rat.divInt 5 10000 * 1000) = 1 / 2 := by
    rw [Rat.divInt_eq_div]
    norm_num
  have h3 : round ((1 : ℚ) / 2) = 1 := by norm_num [round_eq]
  rw [h1, h2, h3]
  decide

/-- Claim C2 (amended): for every input splitting into three
colon-separated fields that parse as `H`, `M` and `S`, `parseTime`
returns exactly `H*3600000 + M*60000 + S*1000` with no rounding; this
agrees with `round(H*3600000 + M*60000 + S*1000)` as an integer
whenever `S*1000` is an integer (in particular for hundredths), e.g.
`"1:02:03.50"` parses to `3723500`. -/
theorem c2_parse_timestamp_exact :
    (∀ (s a b c : String) (H M : Int) (S : ℚ),
      splitOnChar ':' s = [a, b, c] →
      jsParseInt a = some H → jsParseInt b = some M → jsParseFloat c = some S →
      ASSParser.parseTime s = (H : ℚ) * 3600000 + (M : ℚ) * 60000 + S * 1000
      ∧ ((S * 1000).den = 1 →
        ASSParser.parseTime s
          = ((round ((H : ℚ) * 3600000 + (M : ℚ) * 60000 + S * 1000) : Int) : ℚ)))
    ∧ ASSParser.parseTime "1:02:03.50" = 3723500 := by
  constructor
  · intro s a b c H M S hsplit hH hM hS
    have hval : ASSParser.parseTime s = (H : ℚ) * 3600000 + (M : ℚ) * 60000 + S * 1000 := by
      simp only [ASSParser.parseTime, hsplit, List.length_cons, List.length_nil,
        List.getD_cons_zero, List.getD_cons_succ, hH, hM, hS, Option.map_some',
        jsOrQ_some_zero, qMul_eq, qAdd_eq, if_pos]
      ring
    refine ⟨hval, fun hden => ?_⟩
    have h2 : (H : ℚ) * 3600000 + (M : ℚ) * 60000 + S * 1000
        = ((H * 3600000 + M * 60000 + (S * 1000).num : Int) : ℚ) := by
      have hs : ((S * 1000).num : ℚ) = S * 1000 := Rat.coe_int_num_of_den_eq_one hden
      push_cast
      rw [hs]
    rw [hval, h2, round_intCast]
  · decide

/-- Witness for C2 (amended): the canonical example `"1:02:03.50"`
(`H = 1`, `M = 2`, `S = 7/2`) satisfies every hypothesis, and the
rounded form agrees because `S * 1000 = 3500` is an integer. -/
theorem c2_parse_timestamp_exact_witness :
    splitOnChar ':' "1:02:03.50" = ["1", "02", "03.50"]
    ∧ jsParseFloat "03.50" = some (Rat.divInt 7 2)
    ∧ ASSParser.parseTime "1:02:03.50"
      = ((round ((1 : ℚ) * 3600000 + (2 : ℚ) * 60000 + Rat.divInt 7 2 * 1000) : Int) : ℚ) := by
  refine ⟨by decide, by decide, ?_⟩
  exact (c2_parse_timestamp_exact.1 "1:02:03.50" "1" "02" "03.50" 1 2 (Rat.divInt 7 2)
    (by decide) (by decide) (by decide) (by decide)).2 (by rw [← qMul_eq]; decide)

/-- Claim C5 is falsified: the parser performs no range check on the
alignment field, so the style table can hold a record with
`alignment = 11 ∉ {1..9}` (the fallback to 2 happens only for a field
that fails to parse or parses to 0). -/
theorem c5_counterexample_out_of_range_alignment :
    (ASSParser.parseASS c5Input).styles.map (fun p => p.2.alignment) = [11]
    ∧ ¬ ((1 : Int) ≤ 11 ∧ (11 : Int) ≤ 9) := by
  exact ⟨by decide, by decide⟩

/-- Claim C5 (amended): for every record the style parser emits, a
field that fails to parse falls back to its documented default
(alignment 2, font size 16, scale 100/100, border style 1, margins 0),
and an alignment field that parses to any nonzero integer is stored
as-is, with no `{1..9}` range check. -/
theorem c5_style_defaults :
    ∀ (line : String) (st : Style), ASSParser.parseStyle line = some st →
      (ASSParser.jsParseIntAt (ASSParser.stylePartsOf line) 18 = none → st.alignment = 2)
      ∧ (∀ n : Int, ASSParser.jsParseIntAt (ASSParser.stylePartsOf line) 18 = some n →
          n ≠ 0 → st.alignment = n)
      ∧ (ASSParser.jsParseIntAt (ASSParser.stylePartsOf line) 2 = none → st.fontSize = 16)
      ∧ (ASSParser.jsParseFloatAt (ASSParser.stylePartsOf line) 11 = none → st.scaleX = 100)
      ∧ (ASSParser.jsParseFloatAt (ASSParser.stylePartsOf line) 12 = none → st.scaleY = 100)
      ∧ (ASSParser.jsParseIntAt (ASSParser.stylePartsOf line) 15 = none → st.borderStyle = 1)
      ∧ (ASSParser.jsParseIntAt (ASSParser.stylePartsOf line) 19 = none → st.marginL = 0)
      ∧ (ASSParser.jsParseIntAt (ASSParser.stylePartsOf line) 20 = none → st.marginR = 0)
      ∧ (ASSParser.jsParseIntAt (ASSParser.stylePartsOf line) 21 = none → st.marginV = 0) := by
  intro line st h
  rw [ASSParser.parseStyle] at h
  split at h
  · replace h := Option.some.inj h
    subst h
    refine ⟨fun h18 => by simp [jsOrZ, h18],
      fun n h18 hn => by simp [jsOrZ, h18, hn],
      fun h2 => by simp [jsOrZ, h2],
      fun h11 => by simp [jsOrQ, h11],
      fun h12 => by simp [jsOrQ, h12],
      fun h15 => by simp [jsOrZ, h15],
      fun h19 => by simp [jsOrZ, h19],
      fun h20 => by simp [jsOrZ, h20],
      fun h21 => by simp [jsOrZ, h21]⟩
  · exact absurd h (by simp)

/-- Witness for C5 (amended): on a line whose numeric fields are all
unparsable, every default fires. -/
theorem c5_style_defaults_witness :
    (ASSParser.parseStyle c5WitnessLine).map
      (fun st => (st.alignment, st.fontSize, st.scaleX, st.scaleY, st.borderStyle,
        st.marginL, st.marginR, st.marginV)) = some (2, 16, 100, 100, 1, 0, 0, 0) := by
  have hs : (ASSParser.parseStyle c5WitnessLine).isSome := by decide
  obtain ⟨st, hst⟩ := Option.isSome_iff_exists.mp hs
  have h := c5_style_defaults c5WitnessLine st hst
  rw [hst, Option.map_some']
  rw [h.1 (by decide), h.2.2.1 (by decide), h.2.2.2.1 (by decide), h.2.2.2.2.1 (by decide),
    h.2.2.2.2.2.1 (by decide), h.2.2.2.2.2.2.1 (by decide), h.2.2.2.2.2.2.2.1 (by decide),
    h.2.2.2.2.2.2.2.2 (by decide)]

/-- Claim C6 is falsified on boundary whitespace: the stored text field
is the comma-rejoin *trimmed* (`"x"`), not the plain rejoin (`" x"`). -/
theorem c6_counterexample_text_trimmed :
    (ASSParser.parseDialogue c6TrimLine).map DialogueEvent.text = some "x"
    ∧ intercalateComma ((ASSParser.dialoguePartsOf c6TrimLine).drop 9) = " x"
    ∧ ("x" : String) ≠ " x" := by decide

/-- Claim C6 (amended): for every dialogue line accepted by the parser
(at least 10 comma-separated fields), the event's text equals the
rejoining with commas of all fields from the 10th position onward,
trimmed of leading and trailing whitespace; interior commas are
preserved, so `"Hello, world"` survives intact. -/
theorem c6_dialogue_text_rejoin :
    (∀ (line : String) (ev : DialogueEvent), ASSParser.parseDialogue line = some ev →
      ev.text = jsTrim (intercalateComma ((ASSParser.dialoguePartsOf line).drop 9)))
    ∧ (ASSParser.parseDialogue c6HelloLine).map DialogueEvent.text = some "Hello, world" := by
  constructor
  · intro line ev h
    rw [ASSParser.parseDialogue] at h
    split at h
    · replace h := Option.some.inj h
      subst h
      rfl
    · exact absurd h (by simp)
  · decide

/-- Witness for C6 (amended): the comma-carrying line satisfies the
hypothesis and its text field is the trimmed rejoin. -/
theorem c6_dialogue_text_rejoin_witness :
    (ASSParser.parseDialogue c6HelloLine).map DialogueEvent.text
      = some (jsTrim (intercalateComma ((ASSParser.dialoguePartsOf c6HelloLine).drop 9))) := by
  have hs : (ASSParser.parseDialogue c6HelloLine).isSome := by decide
  obtain ⟨ev, hev⟩ := Option.isSome_iff_exists.mp hs
  rw [hev, Option.map_some', c6_dialogue_text_rejoin.1 c6HelloLine ev hev]

/-- Claim C8 is falsified: codes 7 and 9 (both top row, so both
`top-anchor` per the claim) receive *different* second components
(`flex-start` vs `flex-end`), because the code derives the self-
alignment from the keypad column, not the row; no single anchor value
can make the claim's readings of 7 and 9 both true. -/
theorem c8_counterexample_anchor_differs :
    SubtitleRenderer.getPositionStyle (some (sampleStyle 7)) = some ("left", "flex-start")
    ∧ SubtitleRenderer.getPositionStyle (some (sampleStyle 9)) = some ("right", "flex-end")
    ∧ ("flex-start" : String) ≠ "flex-end" := by decide

/-- Claim C8 (amended): the mapper returns a
`(textAlign, alignSelf)` pair derived from the keypad *column* only:
7 maps to `(left, flex-start)`, 9 to `(right, flex-end)`, 5 to
`(center, center)`; the row is ignored, so 1 maps exactly as 7 does
(no vertical block anchor is produced). -/
theorem c8_alignment_mapping :
    ∀ st : Style,
      (st.alignment = 7 →
        SubtitleRenderer.getPositionStyle (some st) = some ("left", "flex-start"))
      ∧ (st.alignment = 9 →
        SubtitleRenderer.getPositionStyle (some st) = some ("right", "flex-end"))
      ∧ (st.alignment = 5 →
        SubtitleRenderer.getPositionStyle (some st) = some ("center", "center"))
      ∧ (st.alignment = 1 →
        SubtitleRenderer.getPositionStyle (some st)
          = SubtitleRenderer.getPositionStyle (some (sampleStyle 7))) := by
  intro st
  refine ⟨fun h => ?_, fun h => ?_, fun h => ?_, fun h => ?_⟩ <;>
    simp [SubtitleRenderer.getPositionStyle, h, sampleStyle]

/-- Witness for C8 (amended): the three named codes on a concrete
record. -/
theorem c8_alignment_mapping_witness :
    SubtitleRenderer.getPositionStyle (some (sampleStyle 5)) = some ("center", "center") :=
  (c8_alignment_mapping (sampleStyle 5)).2.2.1 rfl

/-- A character with a hex-digit value differs from every character
without one. -/
theorem hexDigitVal_ne_of_none (c : Char) (v : Nat) (h : hexDigitVal? c = some v)
    (x : Char) (hx : hexDigitVal? x = none) : c ≠ x := by
  intro e
  rw [e, hx] at h
  exact Option.noConfusion h

/-- A hexadecimal digit is not whitespace, not a sign, not an `x`/`X`,
and satisfies `isHexDig`. -/
theorem hexDigit_facts (c : Char) (v : Nat) (h : hexDigitVal? c = some v) :
    isSpaceJS c = false ∧ c ≠ '-' ∧ c ≠ '+' ∧ c ≠ 'x' ∧ c ≠ 'X' ∧ isHexDig c = true := by
  refine ⟨?_, hexDigitVal_ne_of_none c v h '-' (by decide),
    hexDigitVal_ne_of_none c v h '+' (by decide),
    hexDigitVal_ne_of_none c v h 'x' (by decide),
    hexDigitVal_ne_of_none c v h 'X' (by decide),
    by simp [isHexDig, h]⟩
  simp [isSpaceJS, hexDigitVal_ne_of_none c v h ' ' (by decide),
    hexDigitVal_ne_of_none c v h '\t' (by decide),
    hexDigitVal_ne_of_none c v h '\n' (by decide),
    hexDigitVal_ne_of_none c v h '\r' (by decide),
    hexDigitVal_ne_of_none c v h '\x0b' (by decide),
    hexDigitVal_ne_of_none c v h '\x0c' (by decide)]

/-- `parseInt(s, 16)` on a two-hex-digit string is the place value of
the two digits. -/
theorem jsParseIntHex16_pair (c d : Char) (vc vd : Nat)
    (hc : hexDigitVal? c = some vc) (hd : hexDigitVal? d = some vd) :
    jsParseIntHex16L [c, d] = some ((16 * vc + vd : Nat) : Int) := by
  obtain ⟨hcs, hcm, hcp, hcx, hcX, hch⟩ := hexDigit_facts c vc hc
  obtain ⟨hds, hdm, hdp, hdx, hdX, hdh⟩ := hexDigit_facts d vd hd
  simp [jsParseIntHex16L, stripSign, strip0x, hexPrefixVal, hexDigitsToNat,
    List.dropWhile, List.takeWhile, hcs, hds, hcm, hcp, hcx, hcX, hdx, hdX, hch, hdh, hc, hd]

/-- Claim C4 is falsified on sentinel-wrapped non-hex content: the code
never falls back to white once the sentinels match; failed hex parses
interpolate as `NaN` instead. -/
theorem c4_counterexample_nonhex_sentinel :
    ASSParser.parseColor "&HZZZZZZ&" = "rgb(NaN, NaN, NaN)"
    ∧ ASSParser.parseColor "&HZZZZZZ&" ≠ "#ffffff" := by decide

/-- Claim C4 (amended): a color field without the `&H...&` sentinels
maps to the default white; a sentinel-wrapped field is always decoded
through the hex path: six hex digits `b1 b2 g1 g2 r1 r2` produce the
byte-reversed `rgb(r, g, b)` string (so `&H0000FF&` is red 255, green
0, blue 0), while non-hex content yields `NaN` components, not white. -/
theorem c4_color_decode :
    (∀ s : String,
      ¬ (("&H".toList.isPrefixOf s.toList) ∧ (s.toList.getLast? = some '&')) →
      ASSParser.parseColor s = "#ffffff")
    ∧ (∀ (b1 b2 g1 g2 r1 r2 : Char) (vb1 vb2 vg1 vg2 vr1 vr2 : Nat),
      hexDigitVal? b1 = some vb1 → hexDigitVal? b2 = some vb2 →
      hexDigitVal? g1 = some vg1 → hexDigitVal? g2 = some vg2 →
      hexDigitVal? r1 = some vr1 → hexDigitVal? r2 = some vr2 →
      ASSParser.parseColorL ['&', 'H', b1, b2, g1, g2, r1, r2, '&']
        = "rgb(" ++ toString ((16 * vr1 + vr2 : Nat) : Int) ++ ", "
          ++ toString ((16 * vg1 + vg2 : Nat) : Int) ++ ", "
          ++ toString ((16 * vb1 + vb2 : Nat) : Int) ++ ")")
    ∧ ASSParser.parseColor "&H0000FF&" = "rgb(255, 0, 0)" := by
  refine ⟨?_, ?_, by decide⟩
  · intro s h
    rw [ASSParser.parseColor, ASSParser.parseColorL, if_neg h]
  · intro b1 b2 g1 g2 r1 r2 vb1 vb2 vg1 vg2 vr1 vr2 hb1 hb2 hg1 hg2 hr1 hr2
    have hcond : (("&H".toList.isPrefixOf ['&', 'H', b1, b2, g1, g2, r1, r2, '&'])
        ∧ (['&', 'H', b1, b2, g1, g2, r1, r2, '&'].getLast? = some '&')) := ⟨rfl, rfl⟩
    rw [ASSParser.parseColorL, if_pos hcond]
    show "rgb(" ++ renderJSNum (jsParseIntHex16L [r1, r2]) ++ ", "
        ++ renderJSNum (jsParseIntHex16L [g1, g2]) ++ ", "
        ++ renderJSNum (jsParseIntHex16L [b1, b2]) ++ ")" = _
    rw [jsParseIntHex16_pair b1 b2 vb1 vb2 hb1 hb2, jsParseIntHex16_pair g1 g2 vg1 vg2 hg1 hg2,
      jsParseIntHex16_pair r1 r2 vr1 vr2 hr1 hr2]
    rfl

/-- Witness for C4 (amended): white fallback on a sentinel-free field,
and the reversal instantiated at `&H0000FF&` (digits `0,0,0,0,F,F`). -/
theorem c4_color_decode_witness :
    ASSParser.parseColor "ffffff" = "#ffffff"
    ∧ ASSParser.parseColorL ['&', 'H', '0', '0', '0', '0', 'F', 'F', '&']
      = "rgb(" ++ toString ((16 * 15 + 15 : Nat) : Int) ++ ", "
        ++ toString ((16 * 0 + 0 : Nat) : Int) ++ ", "
        ++ toString ((16 * 0 + 0 : Nat) : Int) ++ ")" :=
  ⟨c4_color_decode.1 "ffffff" (by decide),
   c4_color_decode.2.1 '0' '0' '0' '0' 'F' 'F' 0 0 0 0 15 15
     (by decide) (by decide) (by decide) (by decide) (by decide) (by decide)⟩

/-- Scanning inside a pending tag consumes everything up to and
including the closing brace, then continues outside the tag. -/
theorem removeTagsAux_close (t v : List Char) :
    ∀ buf, rbrace ∉ t →
      SubtitleRenderer.removeTagsAux (t ++ rbrace :: v) (some buf)
        = SubtitleRenderer.removeTagsAux v none := by
  induction t with
  | nil => intro buf _; simp [SubtitleRenderer.removeTagsAux]
  | cons c t ih =>
    intro buf hmem
    have hc : c ≠ rbrace := fun e => hmem (e ▸ List.mem_cons_self c t)
    simp only [List.cons_append, SubtitleRenderer.removeTagsAux, if_neg hc]
    exact ih _ (fun hm => hmem (List.mem_cons_of_mem c hm))

/-- Claim C7: the normalizer removes each brace-delimited override tag
with its delimiters (the non-greedy reading: the tag body contains no
closing brace), and only then replaces the `\N` and `\n` escapes by
real newlines — so `"{\i1}Hi\Nthere"` becomes `"Hi\nthere"`, an escape
inside a tag (`"{\N}x"`) is simply discarded with the tag, and both
escape forms become line breaks (`"a\Nb\nc"`). -/
theorem c7_clean_text_tags_then_breaks :
    (∀ (u t v : List Char), lbrace ∉ u → rbrace ∉ t →
      SubtitleRenderer.removeTags (u ++ lbrace :: (t ++ rbrace :: v))
        = u ++ SubtitleRenderer.removeTags v)
    ∧ SubtitleRenderer.cleanText "\x7b\\i1\x7dHi\\Nthere" = "Hi\nthere"
    ∧ SubtitleRenderer.cleanText "\x7b\\N\x7dx" = "x"
    ∧ SubtitleRenderer.cleanText "a\\Nb\\nc" = "a\nb\nc" := by
  refine ⟨?_, by decide, by decide, by decide⟩
  intro u t v hu ht
  induction u with
  | nil =>
    simp only [List.nil_append, SubtitleRenderer.removeTags, SubtitleRenderer.removeTagsAux,
      if_pos rfl]
    exact removeTagsAux_close t v [lbrace] ht
  | cons a u ih =>
    have ha : a ≠ lbrace := fun e => hu (e ▸ List.mem_cons_self a u)
    simp only [List.cons_append, List.append_eq, SubtitleRenderer.removeTags,
      SubtitleRenderer.removeTagsAux, if_neg ha] at ih ⊢
    rw [ih (fun hm => hu (List.mem_cons_of_mem a hm))]

/-- Witness for C7: one concrete tag flanked by plain text. -/
theorem c7_clean_text_tags_then_breaks_witness :
    SubtitleRenderer.removeTags (['H'] ++ lbrace :: (['x'] ++ rbrace :: ['i']))
      = ['H'] ++ SubtitleRenderer.removeTags ['i'] :=
  c7_clean_text_tags_then_breaks.1 ['H'] ['x'] ['i'] (by decide) (by decide)
